import Mathlib

/-!
Shallow embedding of `src/cube.c`, a terminal renderer that draws a rotating
3D cube as colored ASCII characters.

Modelling conventions:
* C `float` values are modelled as exact rationals (`ℚ`); the spec states all
  numeric contracts over real numbers, and every claim below is about exact
  arithmetic relationships (comparisons, truncation, clamping), not rounding
  of the binary format.
* C `int` casts `(int)x` truncate toward zero; this is `truncTowardZero`.
* The pixel buffers (`zBuffer`, `buffer`, `colorBuffer`) are `List`s indexed
  by the linear index `x + y*width`; `List.set` models an in-bounds store and
  `List.getD` a load.
* `sin`/`cos` from `<math.h>` are passed in as an abstract trig oracle
  `s c : ℚ → ℚ`, since no claim depends on trigonometric identities beyond
  `sin 0 = 0` and `cos 0 = 1`.
* `sprintf` with `%.1f` (C11 / IEEE-754 default rounding, as implemented by
  the host libc) produces the correctly rounded decimal with one fractional
  digit, resolving exact ties to even; this is `format1`.
* `malloc`/`calloc`/`free` are modelled by a ghost heap of live block ids and
  an allocation oracle `env : ℕ → Bool` saying whether the n-th allocation
  request succeeds.
-/

/-- Truncation of a rational toward zero, the semantics of C's `(int)` cast
on a float value. -/
def truncTowardZero (q : ℚ) : ℤ :=
  if 0 ≤ q then ⌊q⌋ else ⌈q⌉

/-- Structure `Point3D` from cube.c: a transient rotated 3D point. -/
structure Point3D where
  x : ℚ
  y : ℚ
  z : ℚ
deriving DecidableEq, Repr

/-- Structure `CubeRenderer` from cube.c: all renderer parameters and the three
per-pixel buffers. -/
structure CubeRenderer where
  A : ℚ
  B : ℚ
  C : ℚ
  cubeWidth : ℚ
  width : ℕ
  height : ℕ
  zBuffer : List ℚ
  buffer : List Char
  colorBuffer : List String
  backgroundASCIICode : Char
  distanceFromCam : ℚ
  horizontalOffset : ℚ
  verticalOffset : ℚ
  K1 : ℚ
  incrementSpeed : ℚ
deriving DecidableEq, Repr

/-- Constant `DEFAULT_WIDTH` from cube.c. -/
def DEFAULT_WIDTH : ℕ := 160

/-- Constant `DEFAULT_HEIGHT` from cube.c. -/
def DEFAULT_HEIGHT : ℕ := 44

/-- Constant `DEFAULT_CUBE_WIDTH` from cube.c. -/
def DEFAULT_CUBE_WIDTH : ℚ := 20

/-- Constant `DEFAULT_DISTANCE` from cube.c. -/
def DEFAULT_DISTANCE : ℚ := 100

/-- Constant `DEFAULT_K1` from cube.c. -/
def DEFAULT_K1 : ℚ := 40

/-- Constant `DEFAULT_INCREMENT` from cube.c. -/
def DEFAULT_INCREMENT : ℚ := 3/5

/-- Constant `MIN_CUBE_WIDTH` from cube.c. -/
def MIN_CUBE_WIDTH : ℚ := 5

/-- Constant `MAX_CUBE_WIDTH` from cube.c. -/
def MAX_CUBE_WIDTH : ℚ := 50

/-- Function `calculatePoint` from cube.c: applies the composed X-then-Y-then-Z
rotation at angles `A`, `B`, `C` to the cube-local integer coordinate
`(i, j, k)`.  `s` and `c` are the `sin`/`cos` oracle. -/
def calculatePoint (s c : ℚ → ℚ) (r : CubeRenderer) (i j k : ℤ) : Point3D :=
  let A := r.A
  let B := r.B
  let C := r.C
  { x := j * s A * s B * c C - k * c A * s B * c C +
         j * c A * s C + k * s A * s C + i * c B * c C
    y := j * c A * c C + k * s A * c C -
         j * s A * s B * s C + k * c A * s B * s C -
         i * c B * s C
    z := k * c A * c B - j * s A * c B + i * s B }

/-- The perspective-projection half of `projectAndDraw` in cube.c: add
`distanceFromCam` to the rotated z, cull when the result is `<= 0.001`,
otherwise return the truncated screen coordinates and the inverse depth
`ooz`. -/
def project (r : CubeRenderer) (p : Point3D) : Option (ℤ × ℤ × ℚ) :=
  let z := p.z + r.distanceFromCam
  if z ≤ 1/1000 then none
  else
    let ooz : ℚ := 1 / z
    let xp : ℤ := truncTowardZero ((r.width : ℚ) / 2 + r.horizontalOffset +
                    r.K1 * ooz * p.x * 2)
    let yp : ℤ := truncTowardZero ((r.height : ℚ) / 2 + r.verticalOffset +
                    r.K1 * ooz * p.y)
    some (xp, yp, ooz)

/-- The depth-tested store half of `projectAndDraw` in cube.c: compute the
linear index, discard silently when out of `[0, width*height)`, and overwrite
the three buffers together exactly when the candidate `ooz` is strictly
greater than the stored depth. -/
def rasterize (r : CubeRenderer) (xp yp : ℤ) (ooz : ℚ) (ch : Char)
    (color : String) : CubeRenderer :=
  let idx : ℤ := xp + yp * (r.width : ℤ)
  if 0 ≤ idx ∧ idx < (r.width : ℤ) * (r.height : ℤ) then
    if r.zBuffer.getD idx.toNat 0 < ooz then
      { r with
          zBuffer := r.zBuffer.set idx.toNat ooz
          buffer := r.buffer.set idx.toNat ch
          colorBuffer := r.colorBuffer.set idx.toNat color }
    else r
  else r

/-- Function `projectAndDraw` from cube.c: truncate the float sample coordinates to
integers, rotate, project, and submit to the depth-tested rasterizer. -/
def projectAndDraw (s c : ℚ → ℚ) (r : CubeRenderer) (cubeX cubeY cubeZ : ℚ)
    (ch : Char) (color : String) : CubeRenderer :=
  let p := calculatePoint s c r (truncTowardZero cubeX) (truncTowardZero cubeY)
             (truncTowardZero cubeZ)
  match project r p with
  | none => r
  | some (xp, yp, ooz) => rasterize r xp yp ooz ch color

/-- Function `clearBuffers` from cube.c: glyphs to the background character, depths to
zero, color tags to the empty string. -/
def clearBuffers (r : CubeRenderer) : CubeRenderer :=
  { r with
      buffer := List.replicate (r.width * r.height) r.backgroundASCIICode
      zBuffer := List.replicate (r.width * r.height) 0
      colorBuffer := List.replicate (r.width * r.height) "" }

/-- Function `handleInput` from cube.c, given that a key `ch` was read: returns the
updated renderer and the `running` flag (`false` only for `q`). -/
def handleInput (r : CubeRenderer) (ch : Char) : CubeRenderer × Bool :=
  if ch = 'q' then (r, false)
  else if ch = 'h' then ({ r with horizontalOffset := r.horizontalOffset - 5 }, true)
  else if ch = 'j' then ({ r with verticalOffset := r.verticalOffset + 1 }, true)
  else if ch = 'k' then ({ r with verticalOffset := r.verticalOffset - 1 }, true)
  else if ch = 'l' then ({ r with horizontalOffset := r.horizontalOffset + 5 }, true)
  else if ch = '+' ∨ ch = '=' then
    ({ r with cubeWidth := min (r.cubeWidth + 1) MAX_CUBE_WIDTH }, true)
  else if ch = '-' ∨ ch = '_' then
    ({ r with cubeWidth := max (r.cubeWidth - 1) MIN_CUBE_WIDTH }, true)
  else (r, true)

/-- Correctly rounded nearest integer with exact ties resolved to the even
integer: the rounding applied by `sprintf` `%.1f` under the default IEEE-754
rounding direction (C11 fprintf, as implemented by the host libc). -/
def roundTiesToEven (q : ℚ) : ℤ :=
  if q - ⌊q⌋ < 1/2 then ⌊q⌋
  else if 1/2 < q - ⌊q⌋ then ⌊q⌋ + 1
  else if ⌊q⌋ % 2 = 0 then ⌊q⌋ else ⌊q⌋ + 1

/-- Formatting for `%.1f`: one fractional digit, correctly rounded with ties to
even, minus sign for negative results. -/
def format1 (q : ℚ) : String :=
  let n := roundTiesToEven (q * 10)
  let sign := if n < 0 then "-" else ""
  sign ++ toString (n.natAbs / 10) ++ "." ++ toString (n.natAbs % 10)

/-- The status text composed by `render` in cube.c (inside its bright-white
color wrapper): `H=<1dp>:V=<1dp>:W=<1dp>`. -/
def statusText (r : CubeRenderer) : String :=
  "H=" ++ format1 r.horizontalOffset ++ ":V=" ++ format1 r.verticalOffset ++
    ":W=" ++ format1 r.cubeWidth

/-- The full status line emitted by `render` in cube.c: the status text
wrapped in the bright-white escape and a reset. -/
def statusLine (r : CubeRenderer) : String :=
  "\x1b[97m" ++ statusText r ++ "\x1b[0m"

/-- Serialization of one pixel by `render` in cube.c: with a non-empty color
tag, the color escape, the glyph, and a reset; otherwise just the glyph. -/
def pixelStr (g : Char) (color : String) : String :=
  if color = "" then String.singleton g
  else color ++ String.singleton g ++ "\x1b[0m"

/-- The flat pixel loop of `render` in cube.c: serialize the first `n`
cells in linear-index order, emitting a newline before cell `k` whenever
`k % width == 0 && k > 0`. -/
def renderCells (r : CubeRenderer) : ℕ → String
  | 0 => ""
  | Nat.succ k =>
    renderCells r k ++
      ((if k % r.width = 0 ∧ 0 < k then "\n" else "") ++
        pixelStr (r.buffer.getD k r.backgroundASCIICode)
          (r.colorBuffer.getD k ""))

/-- Function `render` from cube.c as the byte stream it assembles and writes in one
`fwrite`: cursor-home, the serialized pixel grid, a color reset, another
cursor-home, and the status line. -/
def render (r : CubeRenderer) : String :=
  "\x1b[H" ++ renderCells r (r.width * r.height) ++ "\x1b[0m" ++ "\x1b[H" ++
    statusLine r

/-- Modelled from the spec (frame-composer description, for comparison with
`render`): serialization of one row `y`, `x` running from `0` to `width`,
reading the buffers at `index = x + y*width`. -/
def rowSpec (r : CubeRenderer) (y : ℕ) : ℕ → String
  | 0 => ""
  | Nat.succ x =>
    rowSpec r y x ++
      pixelStr (r.buffer.getD (x + y * r.width) r.backgroundASCIICode)
        (r.colorBuffer.getD (x + y * r.width) "")

/-- Modelled from the spec: the grid serialized row-major, `y` outer and `x`
inner, with a newline at the start of every row after the first. -/
def gridSpec (r : CubeRenderer) : ℕ → String
  | 0 => ""
  | Nat.succ y =>
    gridSpec r y ++ ((if 0 < y then "\n" else "") ++ rowSpec r y r.width)

/-- Modelled from the spec: the whole frame, cursor-home, then the row-major
grid, then color-reset, cursor-home, and the one-line status. -/
def renderSpec (r : CubeRenderer) : String :=
  "\x1b[H" ++ gridSpec r r.height ++ "\x1b[0m" ++ "\x1b[H" ++ statusLine r

/-- Ghost heap for the allocation model: the next fresh block id and the ids
of blocks currently allocated and not freed. -/
structure Heap where
  nextId : ℕ
  live : List ℕ
deriving DecidableEq, Repr

/-- One `malloc`/`calloc` request; `ok` is the oracle's verdict.  On success
a fresh id becomes live, on failure (NULL) the heap is unchanged. -/
def allocOp (ok : Bool) (h : Heap) : Option ℕ × Heap :=
  if ok then (some h.nextId, ⟨h.nextId + 1, h.nextId :: h.live⟩)
  else (none, h)

/-- One `free`; `free(NULL)` is a no-op. -/
def freeOp (x : Option ℕ) (h : Heap) : Heap :=
  match x with
  | none => h
  | some i => { h with live := h.live.erase i }

/-- Function `createRenderer` from cube.c with the ghost heap threaded through: four
allocation requests (the struct, `zBuffer`, `buffer`, `colorBuffer`).  If the
struct allocation fails, return NULL at once; if any buffer allocation
fails, free all three buffers and the struct and return NULL; otherwise
initialize the defaults.  `malloc`ed glyph-buffer contents are indeterminate
in C and are modelled as blanks; `calloc` zero-fill gives the zero depths,
and the NULL color pointers are modelled as empty tags (both buffers are
rewritten by `clearBuffers` before any read). -/
def createRenderer (env : ℕ → Bool) (width height : ℕ) (h0 : Heap) :
    Option CubeRenderer × Heap :=
  match allocOp (env 0) h0 with
  | (none, h1) => (none, h1)
  | (some rid, h1) =>
    let zb := allocOp (env 1) h1
    let bb := allocOp (env 2) zb.2
    let cb := allocOp (env 3) bb.2
    if zb.1.isNone ∨ bb.1.isNone ∨ cb.1.isNone then
      (none, freeOp (some rid) (freeOp cb.1 (freeOp bb.1 (freeOp zb.1 cb.2))))
    else
      (some
        { A := 0
          B := 0
          C := 0
          cubeWidth := DEFAULT_CUBE_WIDTH
          width := width
          height := height
          zBuffer := List.replicate (width * height) 0
          buffer := List.replicate (width * height) ' '
          colorBuffer := List.replicate (width * height) ""
          backgroundASCIICode := ' '
          distanceFromCam := DEFAULT_DISTANCE
          horizontalOffset := 0
          verticalOffset := 0
          K1 := DEFAULT_K1
          incrementSpeed := DEFAULT_INCREMENT }, cb.2)

/-- The startup sequence of `main` in cube.c: construct the renderer with the
default dimensions from the empty heap, then set `cubeWidth = 10`,
`horizontalOffset = cubeWidth`, `verticalOffset = 0`. -/
def mainInit (env : ℕ → Bool) : Option CubeRenderer × Heap :=
  match createRenderer env DEFAULT_WIDTH DEFAULT_HEIGHT ⟨0, []⟩ with
  | (none, h) => (none, h)
  | (some r, h) =>
    let r1 := { r with cubeWidth := 10 }
    let r2 := { r1 with horizontalOffset := r1.cubeWidth }
    (some { r2 with verticalOffset := 0 }, h)

/-- The early-exit path of `main` in cube.c: when `createRenderer` returns
NULL, `main` returns 1; otherwise this path is not taken. -/
def mainAllocExitCode (env : ℕ → Bool) : Option ℕ :=
  if ((createRenderer env DEFAULT_WIDTH DEFAULT_HEIGHT ⟨0, []⟩).1).isNone
  then some 1 else none

/-- A small concrete renderer (4x4, cleared buffers, default camera
parameters, zero angles) used to instantiate theorems with hypotheses. -/
def r0 : CubeRenderer :=
  { A := 0
    B := 0
    C := 0
    cubeWidth := 10
    width := 4
    height := 4
    zBuffer := List.replicate 16 0
    buffer := List.replicate 16 ' '
    colorBuffer := List.replicate 16 ""
    backgroundASCIICode := ' '
    distanceFromCam := 100
    horizontalOffset := 0
    verticalOffset := 0
    K1 := 40
    incrementSpeed := 3/5 }

/-- The per-frame buffer invariant: the three buffers have length
`width*height`, every stored depth is nonnegative, and a pixel whose depth is
still `0` holds the background glyph and the empty color tag. -/
def BufInv (r : CubeRenderer) : Prop :=
  r.zBuffer.length = r.width * r.height ∧
  r.buffer.length = r.width * r.height ∧
  r.colorBuffer.length = r.width * r.height ∧
  (∀ i, i < r.width * r.height → 0 ≤ r.zBuffer.getD i 0) ∧
  (∀ i, i < r.width * r.height → r.zBuffer.getD i 0 = 0 →
    r.buffer.getD i ' ' = r.backgroundASCIICode ∧ r.colorBuffer.getD i "" = "")

/-- The renderer configuration of the status-line scenario:
`horizontalOffset = 3.25`, `verticalOffset = -1.0`, `cubeWidth = 10.0`. -/
def statusRenderer : CubeRenderer :=
  { r0 with horizontalOffset := 13/4, verticalOffset := -1, cubeWidth := 10 }

/-- A 2x2 renderer with one colored pixel and one bare glyph, exercising
both serialization branches. -/
def rColor : CubeRenderer :=
  { r0 with
      width := 2
      height := 2
      zBuffer := List.replicate 4 0
      buffer := ['#', ' ', '@', ' ']
      colorBuffer := ["\x1b[91m", "", "", ""] }

/-- Claim C7: at angles `A = B = C = 0` the rotation transform is the exact
identity on every integer lattice point, given only that the trig oracle
satisfies `sin 0 = 0` and `cos 0 = 1`. -/
theorem calculatePoint_identity (s c : ℚ → ℚ) (hs : s 0 = 0) (hc : c 0 = 1)
    (r : CubeRenderer) (hA : r.A = 0) (hB : r.B = 0) (hC : r.C = 0)
    (i j k : ℤ) :
    calculatePoint s c r i j k = ⟨(i : ℚ), (j : ℚ), (k : ℚ)⟩ := by
  simp [calculatePoint, hA, hB, hC, hs, hc]

/-- Witness for C7 at the concrete point `(1, 2, 3)`. -/
theorem calculatePoint_identity_witness :
    calculatePoint (fun _ => 0) (fun _ => 1) r0 1 2 3 =
      ⟨(1 : ℚ), (2 : ℚ), (3 : ℚ)⟩ :=
  calculatePoint_identity (fun _ => 0) (fun _ => 1) rfl rfl r0 rfl rfl rfl 1 2 3

/-- Claim C9: `projectAndDraw` truncates its float sample coordinates toward
zero before rotating, so any two samples whose coordinates truncate to the
same lattice point produce identical rotation, projection, and rasterization
results. -/
theorem projectAndDraw_truncation (s c : ℚ → ℚ) (r : CubeRenderer)
    (cx cy cz cx' cy' cz' : ℚ) (ch : Char) (col : String)
    (hx : truncTowardZero cx = truncTowardZero cx')
    (hy : truncTowardZero cy = truncTowardZero cy')
    (hz : truncTowardZero cz = truncTowardZero cz') :
    projectAndDraw s c r cx cy cz ch col =
      projectAndDraw s c r cx' cy' cz' ch col := by
  simp only [projectAndDraw, hx, hy, hz]

/-- Witness for C9: two distinct fractional samples in the same lattice cell
rasterize identically. -/
theorem projectAndDraw_truncation_witness :
    projectAndDraw (fun _ => 0) (fun _ => 1) r0 (1/2) (-1/2) (3/10) '#' "\x1b[91m" =
      projectAndDraw (fun _ => 0) (fun _ => 1) r0 (9/10) (-9/10) (7/10) '#' "\x1b[91m" :=
  projectAndDraw_truncation (fun _ => 0) (fun _ => 1) r0 (1/2) (-1/2) (3/10)
    (9/10) (-9/10) (7/10) '#' "\x1b[91m"
    (by unfold truncTowardZero; norm_num)
    (by
      have h1 : truncTowardZero (-1/2) = 0 := by unfold truncTowardZero; norm_num
      have h2 : truncTowardZero (-9/10) = 0 := by unfold truncTowardZero; norm_num
      rw [h1, h2])
    (by unfold truncTowardZero; norm_num)

/-- Claim C4: at startup the renderer is constructed with width 160 and
height 44, and `main` then sets `cubeWidth` to 10 and `horizontalOffset`
equal to `cubeWidth`. -/
theorem mainInit_defaults :
    ∃ r : CubeRenderer, (mainInit (fun _ => true)).1 = some r ∧
      r.width = 160 ∧ r.height = 44 ∧ r.cubeWidth = 10 ∧
      r.horizontalOffset = r.cubeWidth :=
  ⟨_, rfl, rfl, rfl, rfl, rfl⟩

/-- Claim C2: the projector culls exactly when `z + distanceFromCam` is at
most `0.001` (boundary included), and otherwise outputs inverse depth
`ooz = 1/(z + distanceFromCam)` and the two screen coordinates truncated
toward zero. -/
theorem project_characterization (r : CubeRenderer) (p : Point3D) :
    (project r p = none ↔ p.z + r.distanceFromCam ≤ 1/1000) ∧
    (1/1000 < p.z + r.distanceFromCam →
      project r p = some
        (truncTowardZero ((r.width : ℚ) / 2 + r.horizontalOffset +
            r.K1 * (1 / (p.z + r.distanceFromCam)) * p.x * 2),
          truncTowardZero ((r.height : ℚ) / 2 + r.verticalOffset +
            r.K1 * (1 / (p.z + r.distanceFromCam)) * p.y),
          1 / (p.z + r.distanceFromCam))) := by
  by_cases hle : p.z + r.distanceFromCam ≤ 1/1000
  · refine ⟨by simp [project, hle], fun h => absurd hle (not_le.mpr h)⟩
  · have hsome : project r p = some
        (truncTowardZero ((r.width : ℚ) / 2 + r.horizontalOffset +
            r.K1 * (1 / (p.z + r.distanceFromCam)) * p.x * 2),
          truncTowardZero ((r.height : ℚ) / 2 + r.verticalOffset +
            r.K1 * (1 / (p.z + r.distanceFromCam)) * p.y),
          1 / (p.z + r.distanceFromCam)) := by
      unfold project
      rw [if_neg hle]
    refine ⟨?_, fun _ => hsome⟩
    rw [hsome]
    simp only [reduceCtorEq, false_iff]
    exact hle

/-- Witness for C2: a point in front of the camera projects to concrete
truncated coordinates, and a point exactly on the `0.001` boundary is
culled. -/
theorem project_characterization_witness :
    project r0 ⟨1, 2, 3⟩ = some (2, 2, 1/103) ∧
    project r0 ⟨0, 0, 1/1000 - 100⟩ = none := by
  constructor
  · have h := (project_characterization r0 ⟨1, 2, 3⟩).2 (by norm_num [r0])
    rw [h]
    norm_num [r0, truncTowardZero]
  · exact (project_characterization r0 ⟨0, 0, 1/1000 - 100⟩).1.mpr
      (by norm_num [r0])

/-- Claim C6: from any `cubeWidth` in `[5, 50]`, iterating the grow key
(`+` or `=`) keeps `cubeWidth` at most 50 (and at least 5), iterating the
shrink key (`-` or `_`) keeps it at least 5 (and at most 50), and one
application of either key moves `cubeWidth` by at most 1. -/
theorem cubeWidth_clamped (r : CubeRenderer) (gc sc : Char)
    (hg : gc = '+' ∨ gc = '=') (hs : sc = '-' ∨ sc = '_')
    (h5 : 5 ≤ r.cubeWidth) (h50 : r.cubeWidth ≤ 50) (n : ℕ) :
    (5 ≤ ((fun x => (handleInput x gc).1)^[n] r).cubeWidth ∧
      ((fun x => (handleInput x gc).1)^[n] r).cubeWidth ≤ 50) ∧
    (5 ≤ ((fun x => (handleInput x sc).1)^[n] r).cubeWidth ∧
      ((fun x => (handleInput x sc).1)^[n] r).cubeWidth ≤ 50) ∧
    |(handleInput r gc).1.cubeWidth - r.cubeWidth| ≤ 1 ∧
    |(handleInput r sc).1.cubeWidth - r.cubeWidth| ≤ 1 := by
  have hgrow : ∀ x : CubeRenderer, (handleInput x gc).1 =
      { x with cubeWidth := min (x.cubeWidth + 1) MAX_CUBE_WIDTH } := by
    rcases hg with h | h <;> subst h <;> intro x <;> rfl
  have hshrink : ∀ x : CubeRenderer, (handleInput x sc).1 =
      { x with cubeWidth := max (x.cubeWidth - 1) MIN_CUBE_WIDTH } := by
    rcases hs with h | h <;> subst h <;> intro x <;> rfl
  refine ⟨?_, ?_, ?_, ?_⟩
  · induction n with
    | zero => exact ⟨h5, h50⟩
    | succ n ih =>
      rw [Function.iterate_succ_apply', hgrow]
      unfold MAX_CUBE_WIDTH
      exact ⟨le_min (by linarith [ih.1]) (by norm_num), min_le_right _ _⟩
  · induction n with
    | zero => exact ⟨h5, h50⟩
    | succ n ih =>
      rw [Function.iterate_succ_apply', hshrink]
      unfold MIN_CUBE_WIDTH
      exact ⟨le_max_right _ _, max_le (by linarith [ih.2]) (by norm_num)⟩
  · rw [hgrow]
    simp only [MAX_CUBE_WIDTH]
    rw [abs_le]
    rcases min_cases (r.cubeWidth + 1) (50:ℚ) with ⟨h, h'⟩ | ⟨h, h'⟩ <;>
      constructor <;> simp [h] <;> linarith
  · rw [hshrink]
    simp only [MIN_CUBE_WIDTH]
    rw [abs_le]
    rcases max_cases (r.cubeWidth - 1) (5:ℚ) with ⟨h, h'⟩ | ⟨h, h'⟩ <;>
      constructor <;> simp [h] <;> linarith

/-- Witness for C6 at the concrete renderer `r0` (cubeWidth 10), keys `+`
and `-`, and 47 iterations. -/
theorem cubeWidth_clamped_witness :
    (5 ≤ ((fun x => (handleInput x '+').1)^[47] r0).cubeWidth ∧
      ((fun x => (handleInput x '+').1)^[47] r0).cubeWidth ≤ 50) ∧
    (5 ≤ ((fun x => (handleInput x '-').1)^[47] r0).cubeWidth ∧
      ((fun x => (handleInput x '-').1)^[47] r0).cubeWidth ≤ 50) ∧
    |(handleInput r0 '+').1.cubeWidth - r0.cubeWidth| ≤ 1 ∧
    |(handleInput r0 '-').1.cubeWidth - r0.cubeWidth| ≤ 1 :=
  cubeWidth_clamped r0 '+' '-' (Or.inl rfl) (Or.inl rfl)
    (by norm_num [r0]) (by norm_num [r0]) 47

/-- Reading back the element just stored by `List.set`. -/
theorem getD_set_self {α : Type} (l : List α) (i : ℕ) (a d : α)
    (h : i < l.length) : (l.set i a).getD i d = a := by
  simp [List.getD_eq_getElem?_getD, List.getElem?_set, h]

/-- Writing with `List.set` leaves every other position unchanged. -/
theorem getD_set_other {α : Type} (l : List α) (i j : ℕ) (a d : α)
    (h : i ≠ j) : (l.set i a).getD j d = l.getD j d := by
  simp [List.getD_eq_getElem?_getD, List.getElem?_set, h]

/-- Calling `rasterize` on an out-of-bounds index is the identity. -/
theorem rasterize_eq_of_oob (r : CubeRenderer) (xp yp : ℤ) (ooz : ℚ)
    (ch : Char) (col : String)
    (h : ¬ (0 ≤ xp + yp * (r.width : ℤ) ∧
        xp + yp * (r.width : ℤ) < (r.width : ℤ) * (r.height : ℤ))) :
    rasterize r xp yp ooz ch col = r := by
  unfold rasterize
  rw [if_neg h]

/-- Calling `rasterize` is the identity whenever the candidate depth does not beat
the stored depth (ties included). -/
theorem rasterize_eq_of_lose (r : CubeRenderer) (xp yp : ℤ) (ooz : ℚ)
    (ch : Char) (col : String)
    (h : ¬ r.zBuffer.getD (xp + yp * (r.width : ℤ)).toNat 0 < ooz) :
    rasterize r xp yp ooz ch col = r := by
  unfold rasterize
  by_cases hb : 0 ≤ xp + yp * (r.width : ℤ) ∧
      xp + yp * (r.width : ℤ) < (r.width : ℤ) * (r.height : ℤ)
  · rw [if_pos hb, if_neg h]
  · rw [if_neg hb]

/-- Calling `rasterize` on an in-bounds index with a strictly greater candidate depth
overwrites all three buffers at that index together. -/
theorem rasterize_eq_of_win (r : CubeRenderer) (xp yp : ℤ) (ooz : ℚ)
    (ch : Char) (col : String)
    (hlo : 0 ≤ xp + yp * (r.width : ℤ))
    (hhi : xp + yp * (r.width : ℤ) < (r.width : ℤ) * (r.height : ℤ))
    (h : r.zBuffer.getD (xp + yp * (r.width : ℤ)).toNat 0 < ooz) :
    rasterize r xp yp ooz ch col =
      { r with
          zBuffer := r.zBuffer.set (xp + yp * (r.width : ℤ)).toNat ooz
          buffer := r.buffer.set (xp + yp * (r.width : ℤ)).toNat ch
          colorBuffer :=
            r.colorBuffer.set (xp + yp * (r.width : ℤ)).toNat col } := by
  unfold rasterize
  rw [if_pos ⟨hlo, hhi⟩, if_pos h]

/-- Claim C1: for two rasterizer submissions to the same in-bounds pixel
with inverse depths `ooz2 < ooz1`, in either submission order, the stored
glyph, color, and depth afterwards are those of the `ooz1` submission
(provided `ooz1` beats the depth already stored there); moreover the three
buffers are overwritten together exactly when the candidate `ooz` is
strictly greater than the stored depth, and on a tie (or any non-win) the
renderer is unchanged. -/
theorem rasterize_depth_order (r : CubeRenderer) (xp yp : ℤ) (ooz1 ooz2 : ℚ)
    (ch1 ch2 : Char) (col1 col2 : String)
    (hlo : 0 ≤ xp + yp * (r.width : ℤ))
    (hhi : xp + yp * (r.width : ℤ) < (r.width : ℤ) * (r.height : ℤ))
    (hlz : r.zBuffer.length = r.width * r.height)
    (hlb : r.buffer.length = r.width * r.height)
    (hlc : r.colorBuffer.length = r.width * r.height)
    (h21 : ooz2 < ooz1)
    (hwin : r.zBuffer.getD (xp + yp * (r.width : ℤ)).toNat 0 < ooz1) :
    ((rasterize (rasterize r xp yp ooz1 ch1 col1) xp yp ooz2 ch2
        col2).buffer.getD (xp + yp * (r.width : ℤ)).toNat ' ' = ch1 ∧
      (rasterize (rasterize r xp yp ooz1 ch1 col1) xp yp ooz2 ch2
        col2).colorBuffer.getD (xp + yp * (r.width : ℤ)).toNat "" = col1 ∧
      (rasterize (rasterize r xp yp ooz1 ch1 col1) xp yp ooz2 ch2
        col2).zBuffer.getD (xp + yp * (r.width : ℤ)).toNat 0 = ooz1) ∧
    ((rasterize (rasterize r xp yp ooz2 ch2 col2) xp yp ooz1 ch1
        col1).buffer.getD (xp + yp * (r.width : ℤ)).toNat ' ' = ch1 ∧
      (rasterize (rasterize r xp yp ooz2 ch2 col2) xp yp ooz1 ch1
        col1).colorBuffer.getD (xp + yp * (r.width : ℤ)).toNat "" = col1 ∧
      (rasterize (rasterize r xp yp ooz2 ch2 col2) xp yp ooz1 ch1
        col1).zBuffer.getD (xp + yp * (r.width : ℤ)).toNat 0 = ooz1) ∧
    (∀ (ooz : ℚ) (ch : Char) (col : String),
      ¬ r.zBuffer.getD (xp + yp * (r.width : ℤ)).toNat 0 < ooz →
      rasterize r xp yp ooz ch col = r) ∧
    (∀ (ooz : ℚ) (ch : Char) (col : String),
      r.zBuffer.getD (xp + yp * (r.width : ℤ)).toNat 0 < ooz →
      rasterize r xp yp ooz ch col =
        { r with
            zBuffer := r.zBuffer.set (xp + yp * (r.width : ℤ)).toNat ooz
            buffer := r.buffer.set (xp + yp * (r.width : ℤ)).toNat ch
            colorBuffer :=
              r.colorBuffer.set (xp + yp * (r.width : ℤ)).toNat col }) := by
  have hidx : (xp + yp * (r.width : ℤ)).toNat < r.width * r.height := by
    have h2 : xp + yp * (r.width : ℤ) < ((r.width * r.height : ℕ) : ℤ) := by
      push_cast
      exact hhi
    omega
  have hlenz : (xp + yp * (r.width : ℤ)).toNat < r.zBuffer.length := by
    rw [hlz]; exact hidx
  have hlenb : (xp + yp * (r.width : ℤ)).toNat < r.buffer.length := by
    rw [hlb]; exact hidx
  have hlenc : (xp + yp * (r.width : ℤ)).toNat < r.colorBuffer.length := by
    rw [hlc]; exact hidx
  have hset1 := rasterize_eq_of_win r xp yp ooz1 ch1 col1 hlo hhi hwin
  refine ⟨?_, ?_, ?_, ?_⟩
  · -- order ooz1 then ooz2: the second submission loses against ooz1
    have hsecond : rasterize (rasterize r xp yp ooz1 ch1 col1) xp yp ooz2 ch2
        col2 = rasterize r xp yp ooz1 ch1 col1 := by
      apply rasterize_eq_of_lose
      rw [hset1]
      rw [getD_set_self r.zBuffer _ ooz1 0 hlenz]
      exact not_lt.mpr h21.le
    rw [hsecond, hset1]
    exact ⟨getD_set_self r.buffer _ ch1 ' ' hlenb,
      getD_set_self r.colorBuffer _ col1 "" hlenc,
      getD_set_self r.zBuffer _ ooz1 0 hlenz⟩
  · -- order ooz2 then ooz1: the second submission always wins
    by_cases hc : r.zBuffer.getD (xp + yp * (r.width : ℤ)).toNat 0 < ooz2
    · have hset2 := rasterize_eq_of_win r xp yp ooz2 ch2 col2 hlo hhi hc
      rw [hset2]
      have hwin2 := rasterize_eq_of_win
        { r with
            zBuffer := r.zBuffer.set (xp + yp * (r.width : ℤ)).toNat ooz2
            buffer := r.buffer.set (xp + yp * (r.width : ℤ)).toNat ch2
            colorBuffer :=
              r.colorBuffer.set (xp + yp * (r.width : ℤ)).toNat col2 }
        xp yp ooz1 ch1 col1 hlo hhi
        (by
          rw [getD_set_self r.zBuffer _ ooz2 0 hlenz]
          exact h21)
      rw [hwin2]
      refine ⟨?_, ?_, ?_⟩
      · exact getD_set_self _ _ ch1 ' ' (by simpa using hlenb)
      · exact getD_set_self _ _ col1 "" (by simpa using hlenc)
      · exact getD_set_self _ _ ooz1 0 (by simpa using hlenz)
    · have hfirst := rasterize_eq_of_lose r xp yp ooz2 ch2 col2 hc
      rw [hfirst, hset1]
      exact ⟨getD_set_self r.buffer _ ch1 ' ' hlenb,
        getD_set_self r.colorBuffer _ col1 "" hlenc,
        getD_set_self r.zBuffer _ ooz1 0 hlenz⟩
  · intro ooz ch col h
    exact rasterize_eq_of_lose r xp yp ooz ch col h
  · intro ooz ch col h
    exact rasterize_eq_of_win r xp yp ooz ch col hlo hhi h

/-- Witness for C1: on the cleared 4x4 renderer `r0`, pixel `(1,1)`
(index 5), submissions with inverse depths `1/50 > 1/100` leave the glyph of
the `1/50` submission stored in either order. -/
theorem rasterize_depth_order_witness :
    (rasterize (rasterize r0 1 1 (1/50) '#' "\x1b[91m") 1 1 (1/100) '@'
        "\x1b[92m").buffer.getD ((1:ℤ) + 1 * (r0.width : ℤ)).toNat ' ' = '#' ∧
    (rasterize (rasterize r0 1 1 (1/100) '@' "\x1b[92m") 1 1 (1/50) '#'
        "\x1b[91m").buffer.getD ((1:ℤ) + 1 * (r0.width : ℤ)).toNat ' ' = '#' :=
  ⟨(rasterize_depth_order r0 1 1 (1/50) (1/100) '#' '@' "\x1b[91m" "\x1b[92m"
      (by decide) (by decide) (by decide) (by decide) (by decide)
      (by norm_num)
      (by norm_num [r0, List.getD_eq_getElem?_getD,
        List.getElem?_replicate])).1.1,
    (rasterize_depth_order r0 1 1 (1/50) (1/100) '#' '@' "\x1b[91m" "\x1b[92m"
      (by decide) (by decide) (by decide) (by decide) (by decide)
      (by norm_num)
      (by norm_num [r0, List.getD_eq_getElem?_getD,
        List.getElem?_replicate])).2.1.1⟩

/-- A non-culled projection always carries a strictly positive inverse
depth. -/
theorem project_ooz_pos (r : CubeRenderer) (p : Point3D) (xp yp : ℤ)
    (ooz : ℚ) (h : project r p = some (xp, yp, ooz)) : 0 < ooz := by
  unfold project at h
  by_cases hle : p.z + r.distanceFromCam ≤ 1/1000
  · rw [if_pos hle] at h
    exact absurd h (by simp)
  · rw [if_neg hle] at h
    simp only [Option.some.injEq, Prod.mk.injEq] at h
    obtain ⟨-, -, h3⟩ := h
    rw [← h3]
    have hz : 0 < p.z + r.distanceFromCam := by
      have := not_le.mp hle
      linarith
    exact one_div_pos.mpr hz

/-- Lemma stating `rasterize` preserves the buffer invariant for positive candidate depths,
and can change a pixel's glyph or color only by strictly raising that
pixel's stored depth above zero. -/
theorem rasterize_preserves_inv (r : CubeRenderer) (xp yp : ℤ) (ooz : ℚ)
    (ch : Char) (col : String) (hpos : 0 < ooz) (hInv : BufInv r) :
    BufInv (rasterize r xp yp ooz ch col) ∧
    (∀ i, i < r.width * r.height →
      ((rasterize r xp yp ooz ch col).buffer.getD i ' ' ≠ r.buffer.getD i ' ' ∨
        (rasterize r xp yp ooz ch col).colorBuffer.getD i "" ≠
          r.colorBuffer.getD i "") →
      r.zBuffer.getD i 0 < (rasterize r xp yp ooz ch col).zBuffer.getD i 0 ∧
      0 < (rasterize r xp yp ooz ch col).zBuffer.getD i 0) := by
  obtain ⟨hlz, hlb, hlc, hnn, hbg⟩ := hInv
  by_cases hb : 0 ≤ xp + yp * (r.width : ℤ) ∧
      xp + yp * (r.width : ℤ) < (r.width : ℤ) * (r.height : ℤ)
  · by_cases hw : r.zBuffer.getD (xp + yp * (r.width : ℤ)).toNat 0 < ooz
    · have heq := rasterize_eq_of_win r xp yp ooz ch col hb.1 hb.2 hw
      have hidx : (xp + yp * (r.width : ℤ)).toNat < r.width * r.height := by
        have h2 : xp + yp * (r.width : ℤ) < ((r.width * r.height : ℕ) : ℤ) := by
          push_cast
          exact hb.2
        omega
      rw [heq]
      refine ⟨⟨by simpa using hlz, by simpa using hlb, by simpa using hlc,
        ?_, ?_⟩, ?_⟩
      · intro i hi
        by_cases hij : (xp + yp * (r.width : ℤ)).toNat = i
        · subst hij
          rw [getD_set_self r.zBuffer _ ooz 0 (hlz ▸ hidx)]
          exact hpos.le
        · rw [getD_set_other r.zBuffer _ i ooz 0 hij]
          exact hnn i (by simpa using hi)
      · intro i hi h0
        by_cases hij : (xp + yp * (r.width : ℤ)).toNat = i
        · subst hij
          rw [getD_set_self r.zBuffer _ ooz 0 (hlz ▸ hidx)] at h0
          exact absurd h0 (ne_of_gt hpos)
        · rw [getD_set_other r.zBuffer _ i ooz 0 hij] at h0
          have := hbg i (by simpa using hi) h0
          rw [getD_set_other r.buffer _ i ch ' ' hij,
            getD_set_other r.colorBuffer _ i col "" hij]
          simpa using this
      · intro i hi hne
        by_cases hij : (xp + yp * (r.width : ℤ)).toNat = i
        · subst hij
          rw [getD_set_self r.zBuffer _ ooz 0 (hlz ▸ hidx)]
          exact ⟨hw, hpos⟩
        · exfalso
          rcases hne with hne | hne
          · exact hne (getD_set_other r.buffer _ i ch ' ' hij)
          · exact hne (getD_set_other r.colorBuffer _ i col "" hij)
    · have heq := rasterize_eq_of_lose r xp yp ooz ch col hw
      rw [heq]
      exact ⟨⟨hlz, hlb, hlc, hnn, hbg⟩, fun i hi hne => by simp at hne⟩
  · have heq := rasterize_eq_of_oob r xp yp ooz ch col hb
    rw [heq]
    exact ⟨⟨hlz, hlb, hlc, hnn, hbg⟩, fun i hi hne => by simp at hne⟩

/-- Claim C10: `clearBuffers` establishes the buffer invariant (all depths
zero and nonnegative, zero-depth pixels hold the background glyph and empty
color tag), every `projectAndDraw` submission preserves it, and a submission
can change a pixel's glyph or color only via a depth-test win that leaves
that pixel's stored depth strictly positive. -/
theorem projectAndDraw_preserves_inv (s c : ℚ → ℚ) (r : CubeRenderer)
    (cx cy cz : ℚ) (ch : Char) (col : String) (hInv : BufInv r) :
    BufInv (clearBuffers r) ∧
    BufInv (projectAndDraw s c r cx cy cz ch col) ∧
    (∀ i, i < r.width * r.height →
      ((projectAndDraw s c r cx cy cz ch col).buffer.getD i ' ' ≠
          r.buffer.getD i ' ' ∨
        (projectAndDraw s c r cx cy cz ch col).colorBuffer.getD i "" ≠
          r.colorBuffer.getD i "") →
      r.zBuffer.getD i 0 <
        (projectAndDraw s c r cx cy cz ch col).zBuffer.getD i 0 ∧
      0 < (projectAndDraw s c r cx cy cz ch col).zBuffer.getD i 0) := by
  have hclear : BufInv (clearBuffers r) := by
    refine ⟨by simp [clearBuffers], by simp [clearBuffers],
      by simp [clearBuffers], ?_, ?_⟩
    · intro i hi
      simp only [clearBuffers] at hi ⊢
      simp [List.getD_eq_getElem?_getD, List.getElem?_replicate, hi]
    · intro i hi h0
      simp only [clearBuffers] at hi ⊢
      simp [List.getD_eq_getElem?_getD, List.getElem?_replicate, hi]
  refine ⟨hclear, ?_⟩
  cases hp : project r (calculatePoint s c r (truncTowardZero cx)
      (truncTowardZero cy) (truncTowardZero cz)) with
  | none =>
    have heq : projectAndDraw s c r cx cy cz ch col = r := by
      simp only [projectAndDraw, hp]
    rw [heq]
    exact ⟨hInv, fun i hi hne => by simp at hne⟩
  | some t =>
    obtain ⟨xp, yp, ooz⟩ := t
    have heq : projectAndDraw s c r cx cy cz ch col =
        rasterize r xp yp ooz ch col := by
      simp only [projectAndDraw, hp]
    rw [heq]
    exact rasterize_preserves_inv r xp yp ooz ch col
      (project_ooz_pos r _ xp yp ooz hp) hInv

/-- Reading any in-range position of a replicated list. -/
theorem getD_replicate {α : Type} (n i : ℕ) (a d : α) (h : i < n) :
    (List.replicate n a).getD i d = a := by
  rw [List.getD_eq_getElem?_getD, List.getElem?_replicate, if_pos h]
  rfl

/-- Witness for C10: on the concrete cleared renderer `r0` the invariant
holds, is established by `clearBuffers`, and survives one concrete
submission. -/
theorem projectAndDraw_preserves_inv_witness :
    BufInv (clearBuffers r0) ∧
    BufInv (projectAndDraw (fun _ => 0) (fun _ => 1) r0 (1/2) (1/2) (1/2)
      '#' "\x1b[91m") :=
  ⟨(projectAndDraw_preserves_inv (fun _ => 0) (fun _ => 1) r0 (1/2) (1/2)
      (1/2) '#' "\x1b[91m"
      (by
        refine ⟨by decide, by decide, by decide, ?_, ?_⟩
        · intro i hi
          have hi16 : i < 16 := by simpa [r0] using hi
          rw [show r0.zBuffer = List.replicate 16 (0:ℚ) from rfl,
            getD_replicate 16 i 0 0 hi16]
        · intro i hi h0
          have hi16 : i < 16 := by simpa [r0] using hi
          constructor
          · rw [show r0.buffer = List.replicate 16 ' ' from rfl,
              getD_replicate 16 i ' ' ' ' hi16]
            rfl
          · rw [show r0.colorBuffer = List.replicate 16 "" from rfl,
              getD_replicate 16 i "" "" hi16])).1,
    (projectAndDraw_preserves_inv (fun _ => 0) (fun _ => 1) r0 (1/2) (1/2)
      (1/2) '#' "\x1b[91m"
      (by
        refine ⟨by decide, by decide, by decide, ?_, ?_⟩
        · intro i hi
          have hi16 : i < 16 := by simpa [r0] using hi
          rw [show r0.zBuffer = List.replicate 16 (0:ℚ) from rfl,
            getD_replicate 16 i 0 0 hi16]
        · intro i hi h0
          have hi16 : i < 16 := by simpa [r0] using hi
          constructor
          · rw [show r0.buffer = List.replicate 16 ' ' from rfl,
              getD_replicate 16 i ' ' ' ' hi16]
            rfl
          · rw [show r0.colorBuffer = List.replicate 16 "" from rfl,
              getD_replicate 16 i "" "" hi16])).2.1⟩

/-- Claim C8: if any of the four allocation requests during renderer
construction fails, `createRenderer` returns NULL (no partially-initialized
object), every block allocated so far has been freed (the ghost heap holds
no live blocks), and `main`'s early-exit path then returns the non-zero
status 1. -/
theorem createRenderer_alloc_failure (env : ℕ → Bool)
    (hf : env 0 = false ∨ env 1 = false ∨ env 2 = false ∨ env 3 = false) :
    (createRenderer env DEFAULT_WIDTH DEFAULT_HEIGHT ⟨0, []⟩).1 = none ∧
    (createRenderer env DEFAULT_WIDTH DEFAULT_HEIGHT ⟨0, []⟩).2.live = [] ∧
    mainAllocExitCode env = some 1 ∧ (1 : ℕ) ≠ 0 := by
  cases h0 : env 0 <;> cases h1 : env 1 <;> cases h2 : env 2 <;>
    cases h3 : env 3 <;>
    simp_all [createRenderer, mainAllocExitCode, allocOp, freeOp, List.erase]

/-- Witness for C8: the allocator that refuses every request. -/
theorem createRenderer_alloc_failure_witness :
    (createRenderer (fun _ => false) DEFAULT_WIDTH DEFAULT_HEIGHT
        ⟨0, []⟩).1 = none ∧
    (createRenderer (fun _ => false) DEFAULT_WIDTH DEFAULT_HEIGHT
        ⟨0, []⟩).2.live = [] ∧
    mainAllocExitCode (fun _ => false) = some 1 ∧ (1 : ℕ) ≠ 0 :=
  createRenderer_alloc_failure (fun _ => false) (Or.inl rfl)

/-- Evaluating `%.1f` on 3.25: the exact decimal tie resolves to the even digit, 3.2. -/
theorem format1_thirteen_quarters : format1 (13/4) = "3.2" := by
  have hn : roundTiesToEven ((13:ℚ)/4 * 10) = 32 := by
    unfold roundTiesToEven
    norm_num
  unfold format1
  rw [hn]
  decide

/-- Evaluating `%.1f` on -1. -/
theorem format1_neg_one : format1 (-1) = "-1.0" := by
  have hn : roundTiesToEven ((-1:ℚ) * 10) = -10 := by
    unfold roundTiesToEven
    norm_num
  unfold format1
  rw [hn]
  decide

/-- Evaluating `%.1f` on 10. -/
theorem format1_ten : format1 (10) = "10.0" := by
  have hn : roundTiesToEven ((10:ℚ) * 10) = 100 := by
    unfold roundTiesToEven
    norm_num
  unfold format1
  rw [hn]
  decide

/-- Counterexample to C3 as stated: with `horizontalOffset = 3.25` the
composed status text is not `"H=3.3:V=-1.0:W=10.0"`, because `%.1f` resolves
the exact tie 3.25 to the even digit 3.2, not upward. -/
theorem statusText_claim_counterexample :
    statusText statusRenderer ≠ "H=3.3:V=-1.0:W=10.0" := by
  simp only [statusText, statusRenderer]
  rw [format1_thirteen_quarters, format1_neg_one, format1_ten]
  decide

/-- Claim C3 (amended): with `horizontalOffset = 3.25`,
`verticalOffset = -1.0`, `cubeWidth = 10.0`, the composed status text equals
`"H=3.2:V=-1.0:W=10.0"`: each value is formatted to one decimal place with
correct rounding, and the exact decimal tie 3.25 resolves to the even digit
(the C11/IEEE-754 default rounding used by `sprintf`). -/
theorem statusText_scenario :
    statusText statusRenderer = "H=3.2:V=-1.0:W=10.0" := by
  simp only [statusText, statusRenderer]
  rw [format1_thirteen_quarters, format1_neg_one, format1_ten]
  rfl

/-- The flat pixel loop agrees with the row-major row description on any
prefix of a row: after `y` full rows and `j ≤ width` cells of row `y`, the
serialized output is the first `y` rows followed by (when due) the row
separator and the partial row. -/
theorem renderCells_split (r : CubeRenderer) (hw : 0 < r.width) (y : ℕ)
    (IH : renderCells r (y * r.width) = gridSpec r y) :
    ∀ j, j ≤ r.width →
      renderCells r (y * r.width + j) =
        gridSpec r y ++
          ((if 0 < y ∧ 0 < j then "\n" else "") ++ rowSpec r y j) := by
  intro j
  induction j with
  | zero =>
    intro _
    simpa [rowSpec] using IH
  | succ j ihj =>
    intro hj1
    have hlt : j < r.width := Nat.lt_of_succ_le hj1
    have hrec : renderCells r (y * r.width + (j + 1)) =
        renderCells r (y * r.width + j) ++
          ((if (y * r.width + j) % r.width = 0 ∧ 0 < y * r.width + j
              then "\n" else "") ++
            pixelStr (r.buffer.getD (y * r.width + j) r.backgroundASCIICode)
              (r.colorBuffer.getD (y * r.width + j) "")) := rfl
    rw [hrec, ihj (Nat.le_of_succ_le hj1)]
    rcases Nat.eq_zero_or_pos j with hj0 | hjpos
    · subst hj0
      rcases Nat.eq_zero_or_pos y with hy0 | hy
      · subst hy0
        simp [rowSpec]
      · have hyw : 0 < y * r.width := Nat.mul_pos hy hw
        simp [rowSpec, Nat.mul_mod_left, hy, hyw, String.append_assoc]
    · have hmod : (y * r.width + j) % r.width = j := by
        rw [Nat.add_comm, Nat.add_mul_mod_self_right]
        exact Nat.mod_eq_of_lt hlt
      have hsep : ¬ ((y * r.width + j) % r.width = 0 ∧
          0 < y * r.width + j) := by
        rw [hmod]
        rintro ⟨h, -⟩
        omega
      rw [if_neg hsep]
      have hrow : rowSpec r y (j + 1) = rowSpec r y j ++
          pixelStr (r.buffer.getD (j + y * r.width) r.backgroundASCIICode)
            (r.colorBuffer.getD (j + y * r.width) "") := rfl
      rw [hrow, Nat.add_comm j (y * r.width)]
      simp [hjpos, String.append_assoc]

/-- The flat pixel loop of `render` equals the row-major grid of the spec
after any number of complete rows. -/
theorem renderCells_grid (r : CubeRenderer) (hw : 0 < r.width) :
    ∀ y, renderCells r (y * r.width) = gridSpec r y := by
  intro y
  induction y with
  | zero => simp [renderCells, gridSpec]
  | succ y ih =>
    have h1 : (y + 1) * r.width = y * r.width + r.width :=
      Nat.succ_mul y r.width
    rw [h1, renderCells_split r hw y ih r.width (le_refl _)]
    have hgrid : gridSpec r (y + 1) =
        gridSpec r y ++
          ((if 0 < y then "\n" else "") ++ rowSpec r y r.width) := rfl
    rw [hgrid]
    simp [hw]

/-- Claim C5: the frame composer serializes the buffers in row-major order
(`y` outer, `x` inner) with a newline at the start of every row after the
first, wraps colored pixels in their escape and a reset and emits bare
glyphs otherwise, prepends a cursor-home escape, and appends a color-reset,
a cursor-home, and the one-line status string. -/
theorem render_eq_renderSpec (r : CubeRenderer) (hw : 0 < r.width) :
    render r = renderSpec r := by
  unfold render renderSpec
  rw [Nat.mul_comm r.width r.height, renderCells_grid r hw r.height]

/-- Witness for C5 on the concrete 2x2 renderer `rColor`. -/
theorem render_eq_renderSpec_witness : render rColor = renderSpec rColor :=
  render_eq_renderSpec rColor (by decide)
